import Mathlib

/-!
Verification of `plugins/search-backend/src/service/AuthorizedSearchEngine.ts`
(the authorization-aware search wrapper of the Backstage repository snapshot).

The TypeScript source is shallowly embedded below.  Machine numbers that the
source manipulates exactly (page indices, lengths, millisecond budgets) are
modelled as `Nat`; the value produced by the JavaScript `Number(string)`
conversion, which may be `NaN`, an infinity or fractional, is modelled by the
inductive `JsNumber` whose finite values are exact rationals (the model does
not reproduce IEEE-754 rounding of decimal literals; the claims treated here
only use values inside the safe-integer range, where the conversion is
exact).  Asynchronous collaborators are modelled as pure functions together
with explicit call logs and explicit latency functions; wall-clock time is a
`Nat` counter advanced by those latencies, matching the spec's statement that
the budget is only observed at iteration boundaries.
-/

namespace AuthorizedSearch

/-- `AuthorizeResult` of `@backstage/plugin-permission-common`:
the decision variants `ALLOW`, `DENY` and `CONDITIONAL`. -/
inductive AuthorizeResult where
  | ALLOW
  | DENY
  | CONDITIONAL
deriving DecidableEq, Repr

/-- `AuthorizeQuery`: a permission identifier plus an optional resource
reference; the unit handed to the permission collaborator. -/
structure AuthorizeQuery where
  permission : String
  resourceRef : Option String := none
deriving DecidableEq, Repr

/-- `AuthorizeDecision`: the collaborator's answer for one query. -/
structure AuthorizeDecision where
  result : AuthorizeResult
deriving DecidableEq, Repr

/-- `DocumentTypeInfo` of `@backstage/plugin-search-backend-node`:
per-type metadata carrying an optional visibility permission. -/
structure DocumentTypeInfo where
  visibilityPermission : Option String := none
deriving DecidableEq, Repr

/-- The `authorization` field of an `IndexableDocument`: an optional record
holding a `resourceRef` string. -/
structure DocAuthorization where
  resourceRef : String
deriving DecidableEq, Repr

/-- `IndexableDocument`, restricted to the fields the wrapper reads: the
optional `authorization.resourceRef`.  `title` stands for the remaining
payload and lets distinct documents be distinguished. -/
structure IndexableDocument where
  title : String := ""
  authorization : Option DocAuthorization := none
deriving DecidableEq, Repr

/-- `SearchResult`: a `type` tag plus the document payload. -/
structure SearchResult where
  type : String
  document : IndexableDocument
deriving DecidableEq, Repr

/-- `SearchQuery`: free-text term, optional requested `types`, optional
opaque `pageCursor`. -/
structure SearchQuery where
  term : String := ""
  types : Option (List String) := none
  pageCursor : Option String := none
deriving DecidableEq, Repr

/-- `SearchResultSet`: what a search engine query returns. -/
structure SearchResultSet where
  results : List SearchResult
  previousPageCursor : Option String := none
  nextPageCursor : Option String := none
deriving DecidableEq, Repr

/-- `AuthorizedSearchEngineConfig`: latency budget and logical page size. -/
structure AuthorizedSearchEngineConfig where
  queryLatencyBudgetMs : Nat
  pageSize : Nat
deriving DecidableEq, Repr

/-- JavaScript string truthiness for `Option String`-valued expressions
(`undefined` and the empty string are falsy, every other string truthy). -/
def optTruthy : Option String → Bool
  | none => false
  | some s => s ≠ ""

/-! ## The value space of JavaScript `Number(string)` -/

/-- The result of the JavaScript `Number(string)` conversion: `NaN`, a signed
infinity, or a finite value.  Finite values are modelled as exact rationals;
IEEE-754 rounding is not modelled (it never changes NaN-ness or the sign of
the value, which is all `decodePageCursor` inspects, and it is the identity
on safe-range integers). -/
inductive JsNumber where
  | nan
  | inf (neg : Bool)
  | finite (val : ℚ)
deriving DecidableEq, Repr

/-- JavaScript `isNaN` on a number. -/
def jsIsNaN : JsNumber → Bool
  | .nan => true
  | _ => false

/-- JavaScript `x < 0` on a number (`NaN < 0` is false, `-Infinity < 0` is
true; the model conflates `-0` with `0`, and both compare `< 0` as false). -/
def jsLtZero : JsNumber → Bool
  | .nan => false
  | .inf neg => neg
  | .finite q => decide (q < 0)

/-! ## UTF-8 (`Buffer.from(s, 'utf-8')` / `buffer.toString('utf-8')`) -/

/-- UTF-8 encoding of one scalar value (1 to 4 bytes). -/
def utf8EncodeChar (c : Char) : List Nat :=
  let n := c.toNat
  if n < 0x80 then [n]
  else if n < 0x800 then [0xC0 + n / 0x40, 0x80 + n % 0x40]
  else if n < 0x10000 then
    [0xE0 + n / 0x1000, 0x80 + n / 0x40 % 0x40, 0x80 + n % 0x40]
  else
    [0xF0 + n / 0x40000, 0x80 + n / 0x1000 % 0x40, 0x80 + n / 0x40 % 0x40,
      0x80 + n % 0x40]

/-- UTF-8 encoding of a string, as a byte list. -/
def utf8Encode (s : String) : List Nat :=
  (s.toList.map utf8EncodeChar).flatten

/-- Is `n` a UTF-8 continuation byte (`0x80`–`0xBF`)? -/
def isCont (n : Nat) : Bool := 0x80 ≤ n && n < 0xC0

/-- The payload bits of a continuation byte. -/
def contVal (n : Nat) : Nat := n % 0x40

/-- UTF-8 decoding to a character list, replacing invalid sequences with
U+FFFD, as Node's `'utf-8'` decoder does.  At least one byte is consumed per
step, so structural fuel of the input length is enough; the `0` arm is never
reached from `utf8DecodeList`. -/
def utf8DecodeGo : Nat → List Nat → List Char
  | 0, _ => []
  | _ + 1, [] => []
  | fuel + 1, b1 :: rest =>
    if b1 < 0x80 then
      Char.ofNat b1 :: utf8DecodeGo fuel rest
    else if b1 < 0xC2 then
      -- stray continuation byte or overlong lead (0xC0/0xC1)
      '�' :: utf8DecodeGo fuel rest
    else if b1 < 0xE0 then
      match rest with
      | b2 :: rest2 =>
        if isCont b2 then
          Char.ofNat ((b1 - 0xC0) * 0x40 + contVal b2) ::
            utf8DecodeGo fuel rest2
        else '�' :: utf8DecodeGo fuel (b2 :: rest2)
      | [] => ['�']
    else if b1 < 0xF0 then
      match rest with
      | b2 :: b3 :: rest3 =>
        if isCont b2 && isCont b3 then
          let n := (b1 - 0xE0) * 0x1000 + contVal b2 * 0x40 + contVal b3
          if n < 0x800 || (0xD800 ≤ n && n < 0xE000) then
            '�' :: utf8DecodeGo fuel rest3
          else
            Char.ofNat n :: utf8DecodeGo fuel rest3
        else '�' :: utf8DecodeGo fuel (b2 :: b3 :: rest3)
      | _ => ['�']
    else if b1 < 0xF5 then
      match rest with
      | b2 :: b3 :: b4 :: rest4 =>
        if isCont b2 && isCont b3 && isCont b4 then
          let n := (b1 - 0xF0) * 0x40000 + contVal b2 * 0x1000 +
            contVal b3 * 0x40 + contVal b4
          if n < 0x10000 || 0x110000 ≤ n then
            '�' :: utf8DecodeGo fuel rest4
          else
            Char.ofNat n :: utf8DecodeGo fuel rest4
        else '�' :: utf8DecodeGo fuel (b2 :: b3 :: b4 :: rest4)
      | _ => ['�']
    else
      '�' :: utf8DecodeGo fuel rest

/-- UTF-8 decoding of a byte list. -/
def utf8DecodeList (bs : List Nat) : List Char :=
  utf8DecodeGo bs.length bs

/-- UTF-8 decoding of a byte list to a string. -/
def utf8Decode (bs : List Nat) : String :=
  (utf8DecodeList bs).asString

/-! ## Base64 (`buffer.toString('base64')` / `Buffer.from(s, 'base64')`) -/

/-- The standard base64 alphabet. -/
def base64Alphabet : List Char :=
  "ABCDEFGHIJKLMNOPQRSTUVWXYZabcdefghijklmnopqrstuvwxyz0123456789+/".toList

/-- The alphabet character for a sextet value (< 64). -/
def b64Char (n : Nat) : Char := base64Alphabet.getD n '='

/-- The sextet value of a character, if it belongs to the (standard or
URL-safe) base64 alphabet; Node's decoder skips every other character,
including `=` padding. -/
def b64Index (c : Char) : Option Nat :=
  match base64Alphabet.findIdx? (fun a => a = c) with
  | some i => some i
  | none => if c = '-' then some 62 else if c = '_' then some 63 else none

/-- Base64 encoding of a byte list (three bytes per four characters, padded
with `=`), as `Buffer.prototype.toString('base64')` produces. -/
def base64EncodeBytes : List Nat → List Char
  | [] => []
  | [b1] => [b64Char (b1 / 4), b64Char (b1 % 4 * 16), '=', '=']
  | [b1, b2] =>
    [b64Char (b1 / 4), b64Char (b1 % 4 * 16 + b2 / 16), b64Char (b2 % 16 * 4),
      '=']
  | b1 :: b2 :: b3 :: rest =>
    b64Char (b1 / 4) :: b64Char (b1 % 4 * 16 + b2 / 16) ::
      b64Char (b2 % 16 * 4 + b3 / 64) :: b64Char (b3 % 64) ::
      base64EncodeBytes rest

/-- Reassemble bytes from a sextet stream, dropping a trailing lone sextet,
as Node's lenient base64 decoder does. -/
def sextetsToBytes : List Nat → List Nat
  | s1 :: s2 :: s3 :: s4 :: rest =>
    (s1 * 4 + s2 / 16) :: (s2 % 16 * 16 + s3 / 4) :: (s3 % 4 * 64 + s4) ::
      sextetsToBytes rest
  | [s1, s2, s3] => [s1 * 4 + s2 / 16, s2 % 16 * 16 + s3 / 4]
  | [s1, s2] => [s1 * 4 + s2 / 16]
  | _ => []

/-- `Buffer.from(s, 'base64')`: keep the alphabet characters (everything
else, `=` included, is skipped) and reassemble bytes. -/
def base64Decode (s : String) : List Nat :=
  sextetsToBytes (s.toList.filterMap b64Index)

/-! ## JavaScript `Number(string)` (the ToNumber StringNumericLiteral
grammar of ECMAScript) -/

/-- The JavaScript WhiteSpace and LineTerminator code points stripped by the
StringNumericLiteral grammar. -/
def jsWhitespaceCodes : List Nat :=
  [0x9, 0xA, 0xB, 0xC, 0xD, 0x20, 0xA0, 0x1680, 0x2000, 0x2001, 0x2002,
    0x2003, 0x2004, 0x2005, 0x2006, 0x2007, 0x2008, 0x2009, 0x200A, 0x2028,
    0x2029, 0x202F, 0x205F, 0x3000, 0xFEFF]

/-- Is `c` JavaScript whitespace (for trimming a numeric string)? -/
def jsWhitespace (c : Char) : Bool := c.toNat ∈ jsWhitespaceCodes

/-- Strip leading and trailing JavaScript whitespace. -/
def jsTrim (l : List Char) : List Char :=
  ((l.dropWhile jsWhitespace).reverse.dropWhile jsWhitespace).reverse

/-- Is `c` a decimal digit? -/
def isDigit (c : Char) : Bool := 48 ≤ c.toNat && c.toNat ≤ 57

/-- The numeric value of a decimal digit string (most significant first). -/
def digitsVal (l : List Char) : Nat :=
  l.foldl (fun a c => a * 10 + (c.toNat - 48)) 0

/-- Consume an optional sign, returning whether it was `-` and the rest. -/
def parseSign : List Char → Bool × List Char
  | [] => (false, [])
  | c :: r =>
    if c = '+' then (false, r)
    else if c = '-' then (true, r)
    else (false, c :: r)

/-- The character list of the literal `Infinity`. -/
def infinityChars : List Char := ['I', 'n', 'f', 'i', 'n', 'i', 't', 'y']

/-- The finite value `(ip + fp * 10^-|fp|) * 10^exp`, negated when `neg`. -/
def mkFinite (neg : Bool) (ip fp : List Char) (exponent : Int) : JsNumber :=
  let base : ℚ :=
    (digitsVal ip : ℚ) + (digitsVal fp : ℚ) / ((10 : ℚ) ^ fp.length)
  let v : ℚ := base * (10 : ℚ) ^ exponent
  .finite (if neg then -v else v)

/-- Finish a StrDecimalLiteral: `ip` and `fp` are the integer and fraction
digits already consumed, `rest` must be empty or a full ExponentPart. -/
def mkDecimal (neg : Bool) (ip fp : List Char) (rest : List Char) :
    Option JsNumber :=
  if ip = [] && fp = [] then none
  else
    match rest with
    | [] => some (mkFinite neg ip fp 0)
    | e :: r =>
      if e = 'e' || e = 'E' then
        let s := parseSign r
        let ed := s.2.takeWhile isDigit
        if ed = [] || s.2.dropWhile isDigit ≠ [] then none
        else
          some (mkFinite neg ip fp
            (if s.1 then -(digitsVal ed : Int) else (digitsVal ed : Int)))
      else none

/-- Parse an unsigned StrUnsignedDecimalLiteral body (digits, optional
fraction, optional exponent); the whole list must be consumed. -/
def parseUnsignedDec (neg : Bool) (l : List Char) : Option JsNumber :=
  let ip := l.takeWhile isDigit
  match l.dropWhile isDigit with
  | '.' :: r =>
    mkDecimal neg ip (r.takeWhile isDigit) (r.dropWhile isDigit)
  | r1 => mkDecimal neg ip [] r1

/-- Parse a signed StrDecimalLiteral (sign, then `Infinity` or a decimal
body). -/
def parseSignedDecimal (l : List Char) : Option JsNumber :=
  let s := parseSign l
  if s.2 = infinityChars then some (.inf s.1) else parseUnsignedDec s.1 s.2

/-- The value of a digit character in base `radix` (0–9, a–f, A–F). -/
def radixDigitVal (radix : Nat) (c : Char) : Option Nat :=
  let v :=
    if 48 ≤ c.toNat && c.toNat ≤ 57 then some (c.toNat - 48)
    else if 97 ≤ c.toNat && c.toNat ≤ 102 then some (c.toNat - 87)
    else if 65 ≤ c.toNat && c.toNat ≤ 70 then some (c.toNat - 55)
    else none
  v.bind fun n => if n < radix then some n else none

/-- Parse a NonDecimalIntegerLiteral body after the `0x`/`0o`/`0b` tag. -/
def parseRadix (radix : Nat) (l : List Char) : Option JsNumber :=
  if l = [] then none
  else
    match l.mapM (radixDigitVal radix) with
    | some vs =>
      some (.finite ((vs.foldl (fun a v => a * radix + v) 0 : Nat) : ℚ))
    | none => none

/-- Parse a full StrNumericLiteral (after trimming). -/
def parseStrNumericLiteral (l : List Char) : Option JsNumber :=
  match l with
  | c0 :: c :: rest =>
    if c0 = '0' && (c = 'x' || c = 'X') then parseRadix 16 rest
    else if c0 = '0' && (c = 'o' || c = 'O') then parseRadix 8 rest
    else if c0 = '0' && (c = 'b' || c = 'B') then parseRadix 2 rest
    else parseSignedDecimal (c0 :: c :: rest)
  | _ => parseSignedDecimal l

/-- JavaScript `Number(string)`: trim, empty means zero, otherwise the
StrNumericLiteral value, `NaN` when the grammar does not match. -/
def jsStringToNumber (s : String) : JsNumber :=
  let l := jsTrim s.toList
  if l = [] then .finite 0
  else
    match parseStrNumericLiteral l with
    | some v => v
    | none => .nan

/-! ## The page cursor codec (source lines 36–57) -/

/-- The decimal string JavaScript template interpolation produces for a
non-negative integer in the safe range (`${page}`). -/
def natToDecList (p : Nat) : List Char :=
  if p = 0 then ['0']
  else (Nat.digits 10 p).reverse.map fun d => Char.ofNat (48 + d)

/-- `${page}` as a string. -/
def natToDecString (p : Nat) : String := (natToDecList p).asString

/--
`decodePageCursor(pageCursor?)`: an absent — or empty, since `!pageCursor`
is also true for the empty string — cursor yields page 0; otherwise the
cursor is base64-decoded, read as UTF-8, converted by `Number`, and rejected
with `Invalid cursor` when the result `isNaN` or is `< 0`.
-/
def decodePageCursor (pageCursor : Option String) : Except String JsNumber :=
  match pageCursor with
  | none => .ok (.finite 0)
  | some s =>
    if s = "" then .ok (.finite 0)
    else
      let page := jsStringToNumber (utf8Decode (base64Decode s))
      if jsIsNaN page then .error "Invalid cursor"
      else if jsLtZero page then .error "Invalid cursor"
      else .ok page

/-- `encodePageCursor({page})`: base64 of the UTF-8 bytes of `${page}`,
modelled for the non-negative integer pages the wrapper produces. -/
def encodePageCursor (page : Nat) : String :=
  (base64EncodeBytes (utf8Encode (natToDecString page))).asString

/-! ## The wrapper (class `AuthorizedSearchEngine`, source lines 64–181)

The injected collaborators are modelled as pure functions:

* the wrapped engine's `query` is a deterministic responder
  `searchEngine : SearchQuery → SearchResultSet` whose wall-clock cost is
  given by `searchEngineLatencyMs`;
* `permissions.authorize(requests, options)` answers order-correspondently;
  it is modelled pointwise by `authorize : AuthorizeQuery →
  AuthorizeDecision` (each batch receives `requests.map authorize`), with
  cost `authorizeLatencyMs` per dispatched batch.  The `options`
  authorization context is opaque and constant over one query, so it is
  absorbed into `authorize`.

The `DataLoader` wrapped around `permissions.authorize` is constructed
without a `cacheKeyFn`, so its cache and in-batch deduplication key requests
by JavaScript object identity; since every `authorizer.load({...})` call
site builds a fresh object literal, the cache never hits and no request is
ever coalesced with another.  The loader therefore acts as a pure batcher:
all loads issued in one tick (the type gate's `Promise.all`, or one
`filterResults` call) form one `permissions.authorize` batch, in issue
order, with every duplicate kept. -/

/-- The wrapper with its injected collaborators, construction-time type
registry, and resolved configuration. -/
structure AuthorizedSearchEngine where
  searchEngine : SearchQuery → SearchResultSet
  searchEngineLatencyMs : SearchQuery → Nat
  types : List (String × DocumentTypeInfo)
  authorize : AuthorizeQuery → AuthorizeDecision
  authorizeLatencyMs : List AuthorizeQuery → Nat
  config : AuthorizedSearchEngineConfig

namespace AuthorizedSearchEngine

/-- `this.types[type]?.visibilityPermission` (the registry is a JavaScript
object, so its keys are unique and lookup is by key). -/
def typeVisibilityPermission (se : AuthorizedSearchEngine) (t : String) :
    Option String :=
  (se.types.lookup t).bind (·.visibilityPermission)

/-- The authorization request a requested type contributes to the type-gate
batch: `authorizer.load({ permission })` when the looked-up permission is
truthy (present and non-empty), nothing otherwise. -/
def typeGateRequest (se : AuthorizedSearchEngine) (t : String) :
    Option AuthorizeQuery :=
  match se.typeVisibilityPermission t with
  | some p => if p = "" then none else some { permission := p }
  | none => none

/-- The type-level decision for one requested type: the collaborator's
answer to the gate request, or `{ result: ALLOW }` when the permission is
absent (or empty, hence falsy). -/
def typeDecision (se : AuthorizedSearchEngine) (t : String) :
    AuthorizeDecision :=
  match se.typeGateRequest t with
  | some req => se.authorize req
  | none => { result := .ALLOW }

/-- `query.types || Object.keys(this.types)` (a present array is truthy even
when empty). -/
def requestedTypesOf (se : AuthorizedSearchEngine) (q : SearchQuery) :
    List String :=
  match q.types with
  | some ts => ts
  | none => se.types.map Prod.fst

/-- The batch `Promise.all(requestedTypes.map ...)` sends to the
collaborator: one entry per requested type whose permission is truthy,
duplicates kept (the identity-keyed loader coalesces nothing). -/
def typeWaveRequests (se : AuthorizedSearchEngine)
    (requested : List String) : List AuthorizeQuery :=
  requested.filterMap se.typeGateRequest

/-- The lookup function of `typeDecisions = zipObject(requestedTypes, ...)`:
defined on exactly the requested types.  Since the zipped value list is
`requestedTypes.map (typeDecision se)`, a duplicated key receives the same
value from every occurrence, so plain membership plus `typeDecision`
reproduces the object built by lodash `zipObject` (last write wins). -/
def typeDecisionsFn (se : AuthorizedSearchEngine)
    (requested : List String) : String → Option AuthorizeDecision :=
  fun t => if t ∈ requested then some (se.typeDecision t) else none

/-- `authorizedTypes = requestedTypes.filter(type =>
typeDecisions[type]?.result !== DENY)`. -/
def authorizedTypesOf (se : AuthorizedSearchEngine)
    (requested : List String) : List String :=
  requested.filter fun t =>
    (se.typeDecisionsFn requested t).map (·.result) ≠ some .DENY

/-- The per-document authorization request one raw result sends through the
loader: nothing when its type's decision is exactly `ALLOW` (short-circuit),
nothing when the type's permission or the document's `resourceRef` is
absent or falsy, otherwise `{ permission, resourceRef }`. -/
def resultRequest (se : AuthorizedSearchEngine)
    (tds : String → Option AuthorizeDecision) (r : SearchResult) :
    Option AuthorizeQuery :=
  if (tds r.type).map (·.result) = some .ALLOW then none
  else
    match se.typeVisibilityPermission r.type, r.document.authorization with
    | some p, some auth =>
      if p = "" ∨ auth.resourceRef = "" then none
      else some { permission := p, resourceRef := some auth.resourceRef }
    | _, _ => none

/-- Whether one raw result survives `filterResults`: kept without any check
when it contributes no request, otherwise kept exactly when the
collaborator's decision for its request is `ALLOW`. -/
def keepResult (se : AuthorizedSearchEngine)
    (tds : String → Option AuthorizeDecision) (r : SearchResult) : Bool :=
  match se.resultRequest tds r with
  | none => true
  | some req => (se.authorize req).result = .ALLOW

/-- lodash `compact` on the option-shaped values the result mapper
produces. -/
def compact {α : Type} (l : List (Option α)) : List α := l.filterMap id

/-- `filterResults(results, typeDecisions, authorizer)`: map every result to
itself or `undefined` according to its (batched) decision, then `compact`. -/
def filterResults (se : AuthorizedSearchEngine)
    (tds : String → Option AuthorizeDecision) (results : List SearchResult) :
    List SearchResult :=
  compact (results.map fun r => if se.keepResult tds r then some r else none)

/-- The batch one `filterResults` call sends to the collaborator: the
per-document requests in result order (duplicates kept). -/
def filterWaveRequests (se : AuthorizedSearchEngine)
    (tds : String → Option AuthorizeDecision) (results : List SearchResult) :
    List AuthorizeQuery :=
  results.filterMap (se.resultRequest tds)

/-! ### The backfill loop (source lines 119–136) -/

/-- The mutable state of the `do … while` loop, extended with the elapsed
virtual clock and the logs of calls made to the two collaborators. -/
structure LoopState where
  filteredResults : List SearchResult
  nextPageCursor : Option String
  latencyBudgetExhausted : Bool
  elapsedMs : Nat
  engineCalls : List SearchQuery
  authorizeCalls : List (List AuthorizeQuery)
deriving Repr

/-- One execution of the loop body: query the wrapped engine with `types`
replaced by `authorizedTypes` and the engine's own cursor, filter and append
the page, record the new cursor, and re-evaluate the budget from the clock
(advanced by the engine call and, when a per-document batch was dispatched,
by that batch). -/
def loopIter (se : AuthorizedSearchEngine) (q : SearchQuery)
    (authorizedTypes : List String)
    (tds : String → Option AuthorizeDecision) (st : LoopState) : LoopState :=
  let engineQuery : SearchQuery :=
    { q with types := some authorizedTypes, pageCursor := st.nextPageCursor }
  let nextPage := se.searchEngine engineQuery
  let pageRequests := se.filterWaveRequests tds nextPage.results
  let elapsed := st.elapsedMs + se.searchEngineLatencyMs engineQuery +
    (if pageRequests = [] then 0 else se.authorizeLatencyMs pageRequests)
  { filteredResults :=
      st.filteredResults ++ se.filterResults tds nextPage.results
    nextPageCursor := nextPage.nextPageCursor
    latencyBudgetExhausted :=
      decide (se.config.queryLatencyBudgetMs < elapsed)
    elapsedMs := elapsed
    engineCalls := st.engineCalls ++ [engineQuery]
    authorizeCalls := st.authorizeCalls ++
      (if pageRequests = [] then [] else [pageRequests]) }

/-- The `while` condition: a truthy engine cursor, an under-filled page, and
an unexhausted budget. -/
def loopCond (targetResults : Nat) (st : LoopState) : Bool :=
  optTruthy st.nextPageCursor &&
    decide (st.filteredResults.length < targetResults) &&
    !st.latencyBudgetExhausted

/-- The `do … while` loop: run the body, stop when the condition fails.
`fuel` bounds the number of iterations the model will unfold; `none` means
the bound was reached with the condition still true (the source would keep
iterating — with a positive latency budget real time eventually exhausts it,
but the model's virtual clock need not advance). -/
def loopGo (se : AuthorizedSearchEngine) (q : SearchQuery)
    (authorizedTypes : List String)
    (tds : String → Option AuthorizeDecision) (targetResults : Nat) :
    Nat → LoopState → Option LoopState
  | 0, _ => none
  | fuel + 1, st =>
    let st' := se.loopIter q authorizedTypes tds st
    if loopCond targetResults st' then
      se.loopGo q authorizedTypes tds targetResults fuel st'
    else some st'

/-- JavaScript `Array.prototype.slice(a, b)` for the non-negative integer
indices the wrapper uses. -/
def jsSlice {α : Type} (l : List α) (a b : Nat) : List α :=
  (l.drop a).take (b - a)

/-- The observable outcome of one `query` run: the returned result set plus
the collaborator call logs and final internal state, exposed so that the
properties below can speak about them. -/
structure QueryOutcome where
  resultSet : SearchResultSet
  engineCalls : List SearchQuery
  authorizeCalls : List (List AuthorizeQuery)
  accumulated : List SearchResult
  finalEngineCursor : Option String
  latencyBudgetExhausted : Bool
  elapsedMs : Nat
deriving Repr, DecidableEq

/-- The loop state at the first iteration boundary: nothing accumulated, no
engine cursor, budget flag initialized `false`, and the clock and call log
already holding the type-gate batch (dispatched only when non-empty). -/
def initState (se : AuthorizedSearchEngine) (q : SearchQuery) : LoopState :=
  let typeRequests := se.typeWaveRequests (se.requestedTypesOf q)
  { filteredResults := []
    nextPageCursor := none
    latencyBudgetExhausted := false
    elapsedMs :=
      if typeRequests = [] then 0 else se.authorizeLatencyMs typeRequests
    engineCalls := []
    authorizeCalls := if typeRequests = [] then [] else [typeRequests] }

/-- The finalization step (source lines 138–150): slice the accumulated
results to the logical page window and compute the two cursors. -/
def finalizeOutcome (se : AuthorizedSearchEngine) (page : Nat)
    (st : LoopState) : QueryOutcome :=
  { resultSet :=
      { results := jsSlice st.filteredResults (page * se.config.pageSize)
          ((page + 1) * se.config.pageSize)
        previousPageCursor :=
          if page = 0 then none else some (encodePageCursor (page - 1))
        nextPageCursor :=
          if !st.latencyBudgetExhausted &&
              (optTruthy st.nextPageCursor ||
                decide ((page + 1) * se.config.pageSize <
                  st.filteredResults.length)) then
            some (encodePageCursor (page + 1))
          else none }
    engineCalls := st.engineCalls
    authorizeCalls := st.authorizeCalls
    accumulated := st.filteredResults
    finalEngineCursor := st.nextPageCursor
    latencyBudgetExhausted := st.latencyBudgetExhausted
    elapsedMs := st.elapsedMs }

/-- The body of `query` once the cursor has been decoded to the integer
`page`: run the type gate, the backfill loop, and the finalization slice and
cursors. -/
def queryWithPage (se : AuthorizedSearchEngine) (fuel : Nat)
    (q : SearchQuery) (page : Nat) : Except String QueryOutcome :=
  match se.loopGo q (se.authorizedTypesOf (se.requestedTypesOf q))
      (se.typeDecisionsFn (se.requestedTypesOf q))
      ((page + 1) * se.config.pageSize) fuel (se.initState q) with
  | none => .error "fuel exhausted"
  | some st => .ok (se.finalizeOutcome page st)

/-- The page index, when the decoded cursor is a non-negative integer.  The
wrapper itself would carry any non-negative number (including `Infinity` or
a fraction) into its arithmetic; those exotic pages are left outside the
model. -/
def jsToNatPage : JsNumber → Option Nat
  | .finite q => if q.den = 1 && 0 ≤ q.num then some q.num.toNat else none
  | _ => none

/-- `query(query, options)`: decode the cursor (propagating the
`Invalid cursor` rejection), then run the gate, loop and finalization. -/
def query (se : AuthorizedSearchEngine) (fuel : Nat) (q : SearchQuery) :
    Except String QueryOutcome :=
  match decodePageCursor q.pageCursor with
  | .error e => .error e
  | .ok jn =>
    match jsToNatPage jn with
    | none => .error "page outside model"
    | some page => se.queryWithPage fuel q page

end AuthorizedSearchEngine

/-! ## Pass-through operations (source lines 76–82)

`setTranslator` forwards its argument to the wrapped engine.  `index` is an
`async` method whose body calls the wrapped engine's `index` without `await`
or `return`: the call is made with the same arguments, but its settled
outcome is discarded and the wrapper's own promise resolves regardless. -/

/-- `setTranslator(translator)`: apply the wrapped engine's `setTranslator`
to the very same translator value. -/
def wrapperSetTranslator {α β : Type} (underlyingSetTranslator : α → β)
    (translator : α) : β :=
  underlyingSetTranslator translator

/-- `async index(type, documents)`: invoke the wrapped engine's `index` with
the same arguments (first component records the delegated call), discard its
outcome, and resolve with `undefined` (second component) — the missing
`await` means a rejection of the underlying promise never reaches the
caller. -/
def wrapperIndex (underlyingIndex :
      String → List IndexableDocument → Except String Unit)
    (type : String) (documents : List IndexableDocument) :
    (String × List IndexableDocument) × Except String Unit :=
  let _outcome := underlyingIndex type documents
  ((type, documents), Except.ok ())

/-! ## Concrete fixtures used by the counterexample and witness runs -/

/-- A visibility permission shared by several documents. -/
def dedupPermission : String := "search.doc.read"

/-- Two distinct documents of type `doc` carrying the same resource
reference. -/
def dedupResultA : SearchResult :=
  { type := "doc"
    document := { title := "a", authorization := some ⟨"component:a"⟩ } }

/-- See `dedupResultA`. -/
def dedupResultB : SearchResult :=
  { type := "doc"
    document := { title := "b", authorization := some ⟨"component:a"⟩ } }

/-- A wrapper whose engine returns the two documents above on a single raw
page, whose type gate resolves `doc` to `CONDITIONAL` (forcing per-document
checks), and whose collaborator allows every per-document request. -/
def dedupEngine : AuthorizedSearchEngine :=
  { searchEngine := fun _ => { results := [dedupResultA, dedupResultB] }
    searchEngineLatencyMs := fun _ => 0
    types := [("doc", { visibilityPermission := some dedupPermission })]
    authorize := fun req =>
      if req.resourceRef.isSome then { result := .ALLOW }
      else { result := .CONDITIONAL }
    authorizeLatencyMs := fun _ => 0
    config := { queryLatencyBudgetMs := 1000, pageSize := 25 } }

/-- A result used by the witness scenarios. -/
def plainResult : SearchResult := { type := "doc", document := { title := "r" } }

/-- A wrapper used by the witness scenarios: permissionless type `doc`, an
engine that always reports a further page, and a per-call engine latency of
1500 ms against a 1000 ms budget. -/
def slowEngine : AuthorizedSearchEngine :=
  { searchEngine := fun _ =>
      { results := [plainResult], nextPageCursor := some "more" }
    searchEngineLatencyMs := fun _ => 1500
    types := [("doc", {})]
    authorize := fun _ => { result := .ALLOW }
    authorizeLatencyMs := fun _ => 0
    config := { queryLatencyBudgetMs := 1000, pageSize := 2 } }

/-- A wrapper whose type `doc` resolves to `DENY` at the gate and whose
engine honours the `types` restriction (it returns nothing). -/
def denyEngine : AuthorizedSearchEngine :=
  { searchEngine := fun _ => { results := [] }
    searchEngineLatencyMs := fun _ => 0
    types := [("doc", { visibilityPermission := some dedupPermission })]
    authorize := fun _ => { result := .DENY }
    authorizeLatencyMs := fun _ => 0
    config := { queryLatencyBudgetMs := 1000, pageSize := 25 } }

/-- An underlying `index` implementation that always fails. -/
def failingIndexUnderlying :
    String → List IndexableDocument → Except String Unit :=
  fun _ _ => .error "index failed"

/-- A fallback outcome for extracting the value of a concrete run. -/
def emptyOutcome : AuthorizedSearchEngine.QueryOutcome :=
  { resultSet := { results := [] }
    engineCalls := []
    authorizeCalls := []
    accumulated := []
    finalEngineCursor := none
    latencyBudgetExhausted := false
    elapsedMs := 0 }

/-- The outcome of running `denyEngine` on the default query. -/
def denyOutcome : AuthorizedSearchEngine.QueryOutcome :=
  (denyEngine.query 1 {}).toOption.getD emptyOutcome

/-- The outcome of running `dedupEngine` on the default query. -/
def dedupOutcome : AuthorizedSearchEngine.QueryOutcome :=
  (dedupEngine.query 1 { term := "q" }).toOption.getD emptyOutcome

/-- The outcome of running `dedupEngine` on a query requesting only a type
that is absent from the construction-time registry. -/
def mysteryOutcome : AuthorizedSearchEngine.QueryOutcome :=
  (dedupEngine.query 1 { types := some ["mystery"] }).toOption.getD
    emptyOutcome

/-! # Theorems -/

namespace AuthorizedSearchEngine

/-- `filterResults` is `List.filter` by the per-result keep decision: the
`map` to `result`-or-`undefined` followed by `compact` keeps exactly the
kept results, in order. -/
theorem filterResults_eq_filter (se : AuthorizedSearchEngine)
    (tds : String → Option AuthorizeDecision)
    (results : List SearchResult) :
    se.filterResults tds results = results.filter (se.keepResult tds) := by
  induction results with
  | nil => rfl
  | cons r rs ih =>
    simp only [filterResults, compact, List.map_cons, List.filterMap_cons,
      List.filter_cons] at ih ⊢
    by_cases h : se.keepResult tds r
    · simp only [h, if_true, if_pos, id]
      exact congrArg _ ih
    · simp only [h, if_false, Bool.false_eq_true, if_neg, id]
      exact ih

/-- Results whose type decision is exactly `ALLOW` issue no per-document
request. -/
theorem resultRequest_of_allow (se : AuthorizedSearchEngine)
    (tds : String → Option AuthorizeDecision) (r : SearchResult)
    (h : (tds r.type).map AuthorizeDecision.result = some .ALLOW) :
    se.resultRequest tds r = none := by
  unfold resultRequest
  rw [if_pos h]

/-- A result that issues no per-document request is kept. -/
theorem keepResult_of_none (se : AuthorizedSearchEngine)
    (tds : String → Option AuthorizeDecision) (r : SearchResult)
    (h : se.resultRequest tds r = none) :
    se.keepResult tds r = true := by
  unfold keepResult
  rw [h]

/-- C3: for every input list of raw results, `filterResults` returns an
order-preserving subsequence (no holes, no placeholders); a result is
present exactly when its keep decision holds, a result of an `ALLOW` type is
kept outright, and any other result is kept when its type's permission or
its document's resource reference is absent (or empty, hence falsy), and
otherwise exactly when the per-document decision for
`(permission, resourceRef)` is `ALLOW`. -/
theorem filterResultsSpec (se : AuthorizedSearchEngine)
    (tds : String → Option AuthorizeDecision)
    (results : List SearchResult) :
    (se.filterResults tds results).Sublist results ∧
    ∀ r ∈ results,
      (r ∈ se.filterResults tds results ↔ se.keepResult tds r = true) ∧
      ((tds r.type).map AuthorizeDecision.result = some .ALLOW →
        se.keepResult tds r = true) ∧
      ((tds r.type).map AuthorizeDecision.result ≠ some .ALLOW →
        match se.typeVisibilityPermission r.type,
            r.document.authorization with
        | some p, some auth =>
          if p = "" ∨ auth.resourceRef = "" then se.keepResult tds r = true
          else (se.keepResult tds r = true ↔
            (se.authorize
              { permission := p, resourceRef := some auth.resourceRef }
              ).result = .ALLOW)
        | _, _ => se.keepResult tds r = true) := by
  refine ⟨?_, ?_⟩
  · rw [filterResults_eq_filter]
    exact List.filter_sublist _
  · intro r hr
    refine ⟨?_, ?_, ?_⟩
    · rw [filterResults_eq_filter, List.mem_filter]
      simp [hr]
    · intro h
      exact se.keepResult_of_none tds r (se.resultRequest_of_allow tds r h)
    · intro hna
      rcases hperm : se.typeVisibilityPermission r.type with _ | p <;>
        rcases hauth : r.document.authorization with _ | auth
      · exact se.keepResult_of_none tds r
          (by unfold resultRequest; rw [if_neg hna, hperm, hauth])
      · exact se.keepResult_of_none tds r
          (by unfold resultRequest; rw [if_neg hna, hperm, hauth])
      · exact se.keepResult_of_none tds r
          (by unfold resultRequest; rw [if_neg hna, hperm, hauth])
      · dsimp only
        by_cases hpe : p = "" ∨ auth.resourceRef = ""
        · rw [if_pos hpe]
          exact se.keepResult_of_none tds r
            (by unfold resultRequest; rw [if_neg hna, hperm, hauth]; simp [hpe])
        · rw [if_neg hpe]
          have hreq : se.resultRequest tds r =
              some { permission := p, resourceRef := some auth.resourceRef } := by
            unfold resultRequest
            rw [if_neg hna, hperm, hauth]
            simp [hpe]
          unfold keepResult
          rw [hreq]
          simp

/-- Witness for C3 on a concrete result list of `dedupEngine`. -/
theorem filterResultsSpecWitness :
    dedupResultA ∈ dedupEngine.filterResults
      (dedupEngine.typeDecisionsFn ["doc"]) [dedupResultA] ↔
      dedupEngine.keepResult (dedupEngine.typeDecisionsFn ["doc"])
        dedupResultA = true :=
  ((filterResultsSpec dedupEngine (dedupEngine.typeDecisionsFn ["doc"])
    [dedupResultA]).2 dedupResultA (List.mem_singleton.mpr rfl)).1

/-- A type with an absent visibility permission is implicitly `ALLOW`. -/
theorem typeDecision_allow_of_none (se : AuthorizedSearchEngine) (t : String)
    (h : se.typeVisibilityPermission t = none) :
    se.typeDecision t = { result := .ALLOW } := by
  unfold typeDecision typeGateRequest
  rw [h]

/-- On a requested type, the `zipObject` lookup yields its gate decision. -/
theorem typeDecisionsFn_mem (se : AuthorizedSearchEngine)
    (requested : List String) (t : String) (ht : t ∈ requested) :
    se.typeDecisionsFn requested t = some (se.typeDecision t) := by
  unfold typeDecisionsFn
  rw [if_pos ht]

/-- A requested type whose gate decision is `DENY` is dropped from
`authorizedTypes`. -/
theorem not_mem_authorizedTypes (se : AuthorizedSearchEngine)
    (requested : List String) (t : String) (ht : t ∈ requested)
    (hdeny : (se.typeDecision t).result = .DENY) :
    t ∉ se.authorizedTypesOf requested := by
  intro hmem
  rw [authorizedTypesOf, List.mem_filter] at hmem
  have := hmem.2
  rw [typeDecisionsFn_mem se requested t ht] at this
  simp [hdeny] at this

/-- Every property preserved by the loop body and true at the entry state
holds at the state in which the loop stops. -/
theorem loopGo_pres (se : AuthorizedSearchEngine) (q : SearchQuery)
    (aT : List String) (tds : String → Option AuthorizeDecision) (tgt : Nat)
    (P : LoopState → Prop)
    (hstep : ∀ st, P st → P (se.loopIter q aT tds st)) :
    ∀ (fuel : Nat) (st st' : LoopState),
      se.loopGo q aT tds tgt fuel st = some st' → P st → P st' := by
  intro fuel
  induction fuel with
  | zero =>
    intro st st' h
    simp [loopGo] at h
  | succ n ih =>
    intro st st' h hP
    simp only [loopGo] at h
    split at h
    · exact ih _ _ h (hstep st hP)
    · cases h
      exact hstep st hP

/-- Inversion of a successful `query` run: the cursor decoded to an integer
page, the loop stopped at some state, and the outcome is its
finalization. -/
theorem query_ok_inv (se : AuthorizedSearchEngine) (fuel : Nat)
    (q : SearchQuery) (out : QueryOutcome)
    (h : se.query fuel q = .ok out) :
    ∃ (jn : JsNumber) (page : Nat) (st : LoopState),
      decodePageCursor q.pageCursor = .ok jn ∧
      jsToNatPage jn = some page ∧
      se.loopGo q (se.authorizedTypesOf (se.requestedTypesOf q))
        (se.typeDecisionsFn (se.requestedTypesOf q))
        ((page + 1) * se.config.pageSize) fuel (se.initState q) = some st ∧
      out = se.finalizeOutcome page st := by
  unfold query at h
  split at h
  · exact absurd h (by simp)
  · rename_i jn hjn
    split at h
    · exact absurd h (by simp)
    · rename_i page hpage
      unfold queryWithPage at h
      split at h
      · exact absurd h (by simp)
      · rename_i st hst
        refine ⟨jn, page, st, hjn, hpage, hst, ?_⟩
        cases h
        rfl

/-- Once an iteration ends past the budget, the loop stops at exactly that
iteration's state, whatever fuel remains. -/
theorem loopGo_stop_of_overrun (se : AuthorizedSearchEngine)
    (q : SearchQuery) (aT : List String)
    (tds : String → Option AuthorizeDecision) (tgt fuel : Nat)
    (st : LoopState)
    (h : se.config.queryLatencyBudgetMs <
      (se.loopIter q aT tds st).elapsedMs) :
    se.loopGo q aT tds tgt (fuel + 1) st =
      some (se.loopIter q aT tds st) := by
  have hflag : (se.loopIter q aT tds st).latencyBudgetExhausted = true :=
    decide_eq_true h
  simp only [loopGo, loopCond, hflag]
  simp

/-- An absent incoming cursor decodes to page 0. -/
theorem query_none_cursor (se : AuthorizedSearchEngine) (fuel : Nat)
    (q : SearchQuery) (hcur : q.pageCursor = none) :
    se.query fuel q = se.queryWithPage fuel q 0 := by
  have h0 : jsToNatPage (.finite 0) = some 0 := by decide
  unfold query
  rw [hcur]
  dsimp only [decodePageCursor]
  rw [h0]

/-- Every engine call a successful run makes restricts `types` to
`authorizedTypes`. -/
theorem engineCalls_types (se : AuthorizedSearchEngine) (fuel : Nat)
    (q : SearchQuery) (out : QueryOutcome)
    (hout : se.query fuel q = .ok out) :
    ∀ eq ∈ out.engineCalls,
      eq.types = some (se.authorizedTypesOf (se.requestedTypesOf q)) := by
  obtain ⟨jn, page, st, _, _, hloop, rfl⟩ := query_ok_inv se fuel q out hout
  refine loopGo_pres se q _ _ _
    (fun s => ∀ eq ∈ s.engineCalls,
      eq.types = some (se.authorizedTypesOf (se.requestedTypesOf q)))
    ?_ fuel _ st hloop ?_
  · intro s hs eq heq
    dsimp only [loopIter] at heq
    rw [List.mem_append] at heq
    rcases heq with h | h
    · exact hs eq h
    · rw [List.mem_singleton] at h
      subst h
      rfl
  · intro eq heq
    simp [initState] at heq

/-- Every accumulated result of a successful run has a type in
`authorizedTypes`, provided the wrapped engine honours the `types`
restriction. -/
theorem accumulated_types (se : AuthorizedSearchEngine) (fuel : Nat)
    (q : SearchQuery) (out : QueryOutcome)
    (hout : se.query fuel q = .ok out)
    (hhonor : ∀ eq : SearchQuery, ∀ r ∈ (se.searchEngine eq).results,
      ∀ ts, eq.types = some ts → r.type ∈ ts) :
    ∀ r ∈ out.accumulated,
      r.type ∈ se.authorizedTypesOf (se.requestedTypesOf q) := by
  obtain ⟨jn, page, st, _, _, hloop, rfl⟩ := query_ok_inv se fuel q out hout
  refine loopGo_pres se q _ _ _
    (fun s => ∀ r ∈ s.filteredResults,
      r.type ∈ se.authorizedTypesOf (se.requestedTypesOf q))
    ?_ fuel _ st hloop ?_
  · intro s hs r hr
    dsimp only [loopIter] at hr
    rw [List.mem_append] at hr
    rcases hr with h | h
    · exact hs r h
    · rw [filterResults_eq_filter, List.mem_filter] at h
      exact hhonor _ r h.1 _ rfl
  · intro r hr
    simp [initState] at hr

/-- The returned page is a sub-collection of the accumulated results. -/
theorem results_sub_accumulated (se : AuthorizedSearchEngine) (fuel : Nat)
    (q : SearchQuery) (out : QueryOutcome)
    (hout : se.query fuel q = .ok out) :
    ∀ r ∈ out.resultSet.results, r ∈ out.accumulated := by
  obtain ⟨jn, page, st, _, _, _, rfl⟩ := query_ok_inv se fuel q out hout
  intro r hr
  dsimp only [finalizeOutcome, jsSlice] at hr ⊢
  exact List.mem_of_mem_drop (List.mem_of_mem_take hr)

/-- C1: a requested type whose gate decision is `DENY` never appears in the
`types` restriction of any call made to the wrapped engine, and (when the
engine honours that restriction) no result of that type appears in the
returned page. -/
theorem typeDenyExcluded (se : AuthorizedSearchEngine) (fuel : Nat)
    (q : SearchQuery) (out : QueryOutcome) (t : String)
    (hout : se.query fuel q = .ok out)
    (hhonor : ∀ eq : SearchQuery, ∀ r ∈ (se.searchEngine eq).results,
      ∀ ts, eq.types = some ts → r.type ∈ ts)
    (ht : t ∈ se.requestedTypesOf q)
    (hdeny : (se.typeDecision t).result = .DENY) :
    (∀ eq ∈ out.engineCalls, ∃ ts, eq.types = some ts ∧ t ∉ ts) ∧
    (∀ r ∈ out.resultSet.results, r.type ≠ t) := by
  have hna := se.not_mem_authorizedTypes (se.requestedTypesOf q) t ht hdeny
  refine ⟨fun eq heq => ⟨_, engineCalls_types se fuel q out hout eq heq, hna⟩,
    fun r hr hrt => hna ?_⟩
  rw [← hrt]
  exact accumulated_types se fuel q out hout hhonor r
    (results_sub_accumulated se fuel q out hout r hr)

/-- Witness for C1 on the concrete `denyEngine` run. -/
theorem typeDenyExcludedWitness :
    (∀ eq ∈ denyOutcome.engineCalls, ∃ ts, eq.types = some ts ∧ "doc" ∉ ts) ∧
    (∀ r ∈ denyOutcome.resultSet.results, r.type ≠ "doc") :=
  typeDenyExcluded denyEngine 1 {} denyOutcome "doc" rfl
    (fun eq r hr => by simp [denyEngine] at hr) (by decide) (by decide)

/-- C6: the loop never begins a further iteration once the elapsed time at
an iteration boundary exceeds the budget; and with an engine always
reporting a further cursor, an all-allowing authorizer and a per-call
engine latency above the budget, the whole query stops after its first
(overrun) iteration and returns no `nextPageCursor`. -/
theorem budgetDegradation :
    (∀ (se : AuthorizedSearchEngine) (q : SearchQuery) (aT : List String)
        (tds : String → Option AuthorizeDecision) (tgt fuel : Nat)
        (st : LoopState),
      se.config.queryLatencyBudgetMs < (se.loopIter q aT tds st).elapsedMs →
      se.loopGo q aT tds tgt (fuel + 1) st =
        some (se.loopIter q aT tds st)) ∧
    (∀ (se : AuthorizedSearchEngine) (q : SearchQuery) (fuel : Nat),
      q.pageCursor = none →
      (∀ eq : SearchQuery,
        optTruthy (se.searchEngine eq).nextPageCursor = true) →
      (∀ eq : SearchQuery,
        se.config.queryLatencyBudgetMs < se.searchEngineLatencyMs eq) →
      (∀ req : AuthorizeQuery, se.authorize req = { result := .ALLOW }) →
      ∃ out : QueryOutcome, se.query (fuel + 1) q = .ok out ∧
        out.engineCalls.length = 1 ∧ out.latencyBudgetExhausted = true ∧
        out.resultSet.nextPageCursor = none) := by
  refine ⟨fun se q aT tds tgt fuel st h =>
    loopGo_stop_of_overrun se q aT tds tgt fuel st h, ?_⟩
  intro se q fuel hcur hruthy hlat hauth
  set aT := se.authorizedTypesOf (se.requestedTypesOf q) with haT
  set tds := se.typeDecisionsFn (se.requestedTypesOf q) with htds
  set st0 := se.initState q with hst0
  have hover : se.config.queryLatencyBudgetMs <
      (se.loopIter q aT tds st0).elapsedMs := by
    have hl := hlat { q with types := some aT, pageCursor := st0.nextPageCursor }
    dsimp only [loopIter]
    exact lt_of_lt_of_le hl
      (le_trans (Nat.le_add_left _ _) (Nat.le_add_right _ _))
  have hgo := loopGo_stop_of_overrun se q aT tds
    (1 * se.config.pageSize) fuel st0 hover
  refine ⟨se.finalizeOutcome 0 (se.loopIter q aT tds st0), ?_, ?_, ?_, ?_⟩
  · rw [query_none_cursor se (fuel + 1) q hcur]
    unfold queryWithPage
    rw [← haT, ← htds, ← hst0, Nat.zero_add, hgo]
  · dsimp only [finalizeOutcome, loopIter]
    rw [hst0]
    simp [initState]
  · dsimp only [finalizeOutcome]
    exact decide_eq_true hover
  · have hflag : (se.loopIter q aT tds st0).latencyBudgetExhausted = true :=
      decide_eq_true hover
    dsimp only [finalizeOutcome]
    rw [hflag]
    simp

/-- Witness for C6 on the concrete `slowEngine` run. -/
theorem budgetDegradationWitness :
    ∃ out : QueryOutcome, slowEngine.query 1 {} = .ok out ∧
      out.engineCalls.length = 1 ∧ out.latencyBudgetExhausted = true ∧
      out.resultSet.nextPageCursor = none :=
  budgetDegradation.2 slowEngine {} 0 rfl (fun _ => rfl)
    (fun _ => by change (1000 : Nat) < 1500; decide) (fun _ => rfl)

/-- C7: on a successful run whose cursor decoded to the integer `page`, the
returned results are the accumulated results sliced to
`[page*pageSize, (page+1)*pageSize)`, `previousPageCursor` is absent exactly
for page 0 and otherwise encodes `page - 1`, and when the budget was not
exhausted `nextPageCursor` encodes `page + 1` exactly when the engine's last
response carried a (truthy) cursor or the accumulation strictly exceeds the
target. -/
theorem finalizeSpec (se : AuthorizedSearchEngine) (fuel : Nat)
    (q : SearchQuery) (out : QueryOutcome) (jn : JsNumber) (page : Nat)
    (hout : se.query fuel q = .ok out)
    (hdec : decodePageCursor q.pageCursor = .ok jn)
    (hpage : jsToNatPage jn = some page) :
    out.resultSet.results = jsSlice out.accumulated
      (page * se.config.pageSize) ((page + 1) * se.config.pageSize) ∧
    out.resultSet.previousPageCursor =
      (if page = 0 then none else some (encodePageCursor (page - 1))) ∧
    (out.latencyBudgetExhausted = false →
      out.resultSet.nextPageCursor =
        (if optTruthy out.finalEngineCursor ||
            decide ((page + 1) * se.config.pageSize <
              out.accumulated.length) then
          some (encodePageCursor (page + 1))
        else none)) := by
  obtain ⟨jn', page', st, hdec', hpage', hloop, rfl⟩ :=
    query_ok_inv se fuel q out hout
  rw [hdec] at hdec'
  injection hdec' with hjn
  subst hjn
  rw [hpage] at hpage'
  injection hpage' with hp
  subst hp
  refine ⟨rfl, rfl, ?_⟩
  intro hex
  dsimp only [finalizeOutcome] at hex ⊢
  rw [hex]
  simp

/-- Witness for C7 on the concrete `dedupEngine` run. -/
theorem finalizeSpecWitness :
    dedupOutcome.resultSet.results = jsSlice dedupOutcome.accumulated
      (0 * dedupEngine.config.pageSize)
      ((0 + 1) * dedupEngine.config.pageSize) ∧
    dedupOutcome.resultSet.previousPageCursor =
      (if 0 = 0 then none else some (encodePageCursor (0 - 1))) ∧
    (dedupOutcome.latencyBudgetExhausted = false →
      dedupOutcome.resultSet.nextPageCursor =
        (if optTruthy dedupOutcome.finalEngineCursor ||
            decide ((0 + 1) * dedupEngine.config.pageSize <
              dedupOutcome.accumulated.length) then
          some (encodePageCursor (0 + 1))
        else none)) :=
  finalizeSpec dedupEngine 1 { term := "q" } dedupOutcome (.finite 0) 0
    rfl rfl (by decide)

/-- C8: a requested type with no (truthy) visibility permission, or whose
gate decision is `ALLOW`, has every one of its results kept by the filter
and contributes no per-document authorization request at all. -/
theorem typeAllowSkipsDocChecks (se : AuthorizedSearchEngine)
    (requested : List String) (t : String) (results : List SearchResult)
    (ht : t ∈ requested)
    (hallow : se.typeVisibilityPermission t = none ∨
      (se.typeDecision t).result = .ALLOW) :
    ∀ r ∈ results, r.type = t →
      r ∈ se.filterResults (se.typeDecisionsFn requested) results ∧
      se.resultRequest (se.typeDecisionsFn requested) r = none := by
  have hdec : (se.typeDecision t).result = .ALLOW := by
    rcases hallow with h | h
    · rw [se.typeDecision_allow_of_none t h]
    · exact h
  intro r hr hrt
  have hta : (se.typeDecisionsFn requested r.type).map
      AuthorizeDecision.result = some .ALLOW := by
    rw [hrt, se.typeDecisionsFn_mem requested t ht]
    simp [hdec]
  have hreq := se.resultRequest_of_allow _ r hta
  refine ⟨?_, hreq⟩
  rw [filterResults_eq_filter, List.mem_filter]
  exact ⟨hr, se.keepResult_of_none _ r hreq⟩

/-- Witness for C8 on the permissionless type of `slowEngine`. -/
theorem typeAllowSkipsDocChecksWitness :
    plainResult ∈ slowEngine.filterResults
      (slowEngine.typeDecisionsFn ["doc"]) [plainResult] ∧
    slowEngine.resultRequest (slowEngine.typeDecisionsFn ["doc"])
      plainResult = none :=
  typeAllowSkipsDocChecks slowEngine ["doc"] "doc" [plainResult]
    (by decide) (Or.inl (by decide)) plainResult (List.mem_singleton.mpr rfl)
    rfl

/-- C10: a requested type absent from the construction-time registry is
treated like a permissionless type: its gate decision is `ALLOW` with no
collaborator request, it stays in the `types` restriction sent to the
engine on every call of a successful run, and all of its results pass the
filter with no per-document request. -/
theorem unknownTypeDefaultAllow (se : AuthorizedSearchEngine) (fuel : Nat)
    (q : SearchQuery) (out : QueryOutcome) (t : String)
    (hlookup : se.types.lookup t = none)
    (ht : t ∈ se.requestedTypesOf q)
    (hout : se.query fuel q = .ok out) :
    se.typeDecision t = { result := .ALLOW } ∧
    se.typeGateRequest t = none ∧
    t ∈ se.authorizedTypesOf (se.requestedTypesOf q) ∧
    (∀ eq ∈ out.engineCalls, ∃ ts, eq.types = some ts ∧ t ∈ ts) ∧
    (∀ results : List SearchResult, ∀ r ∈ results, r.type = t →
      r ∈ se.filterResults (se.typeDecisionsFn (se.requestedTypesOf q))
        results ∧
      se.resultRequest (se.typeDecisionsFn (se.requestedTypesOf q)) r =
        none) := by
  have hperm : se.typeVisibilityPermission t = none := by
    unfold typeVisibilityPermission
    rw [hlookup]
    rfl
  have hdec := se.typeDecision_allow_of_none t hperm
  have hgate : se.typeGateRequest t = none := by
    unfold typeGateRequest
    rw [hperm]
  have hmem : t ∈ se.authorizedTypesOf (se.requestedTypesOf q) := by
    rw [authorizedTypesOf, List.mem_filter]
    refine ⟨ht, ?_⟩
    rw [se.typeDecisionsFn_mem _ t ht, hdec]
    simp
  refine ⟨hdec, hgate, hmem,
    fun eq heq => ⟨_, engineCalls_types se fuel q out hout eq heq, hmem⟩,
    fun results r hr hrt =>
      typeAllowSkipsDocChecks se (se.requestedTypesOf q) t results ht
        (Or.inl hperm) r hr hrt⟩

/-- Witness for C10 on a registry-absent type of `dedupEngine`. -/
theorem unknownTypeDefaultAllowWitness :
    dedupEngine.typeDecision "mystery" = { result := .ALLOW } ∧
    dedupEngine.typeGateRequest "mystery" = none ∧
    "mystery" ∈ dedupEngine.authorizedTypesOf
      (dedupEngine.requestedTypesOf { types := some ["mystery"] }) ∧
    (∀ eq ∈ mysteryOutcome.engineCalls,
      ∃ ts, eq.types = some ts ∧ "mystery" ∈ ts) ∧
    (∀ results : List SearchResult, ∀ r ∈ results, r.type = "mystery" →
      r ∈ dedupEngine.filterResults
        (dedupEngine.typeDecisionsFn
          (dedupEngine.requestedTypesOf { types := some ["mystery"] }))
        results ∧
      dedupEngine.resultRequest
        (dedupEngine.typeDecisionsFn
          (dedupEngine.requestedTypesOf { types := some ["mystery"] })) r =
        none) :=
  unknownTypeDefaultAllow dedupEngine 1 { types := some ["mystery"] }
    mysteryOutcome "mystery" (by decide) (by decide) rfl

/-- C2 (code bug): on a query whose raw page holds two results sharing one
`(permission, resourceRef)` pair, the collaborator receives that identical
key twice within the query — the `DataLoader` is built without a
`cacheKeyFn`, so its identity-keyed cache never coalesces the fresh
`authorizer.load({...})` object literals. -/
theorem dedupViolationRun :
    (dedupEngine.query 1 { term := "q" }).toOption.map
      (fun o => o.authorizeCalls.flatten.count
        { permission := dedupPermission,
          resourceRef := some "component:a" }) = some 2 := by
  decide

end AuthorizedSearchEngine

/-! ## The page cursor codec: round trip and rejection -/

/-- `asString` and `toList` are mutually inverse on character lists. -/
theorem toList_asString (l : List Char) : (l.asString).toList = l := rfl

/-- The base64 alphabet decodes its own characters. -/
theorem b64Char_index (n : Nat) (h : n < 64) : b64Index (b64Char n) = some n := by
  have hall : ∀ m : Fin 64, b64Index (b64Char m.val) = some m.val := by decide
  exact hall ⟨n, h⟩

/-- Padding characters are skipped by the decoder. -/
theorem b64Index_pad : b64Index '=' = none := by decide

/-- Decoding inverts encoding on byte lists (the exact lenient-decoder
composition used by the cursor codec). -/
theorem base64_roundtrip (bs : List Nat) (h : ∀ b ∈ bs, b < 256) :
    sextetsToBytes ((base64EncodeBytes bs).filterMap b64Index) = bs := by
  induction bs using base64EncodeBytes.induct with
  | case1 => rfl
  | case2 b1 =>
    have h1 : b1 < 256 := h b1 (by simp)
    simp only [base64EncodeBytes, List.filterMap_cons,
      b64Char_index _ (by omega : b1 / 4 < 64),
      b64Char_index _ (by omega : b1 % 4 * 16 < 64), b64Index_pad,
      List.filterMap_nil, sextetsToBytes, List.cons.injEq, and_true]
    omega
  | case3 b1 b2 =>
    have h1 : b1 < 256 := h b1 (by simp)
    have h2 : b2 < 256 := h b2 (by simp)
    simp only [base64EncodeBytes, List.filterMap_cons,
      b64Char_index _ (by omega : b1 / 4 < 64),
      b64Char_index _ (by omega : b1 % 4 * 16 + b2 / 16 < 64),
      b64Char_index _ (by omega : b2 % 16 * 4 < 64), b64Index_pad,
      List.filterMap_nil, sextetsToBytes, List.cons.injEq, and_true]
    omega
  | case4 b1 b2 b3 rest ih =>
    have h1 : b1 < 256 := h b1 (by simp)
    have h2 : b2 < 256 := h b2 (by simp)
    have h3 : b3 < 256 := h b3 (by simp)
    have hr : ∀ b ∈ rest, b < 256 := fun b hb => h b (by simp [hb])
    simp only [base64EncodeBytes, List.filterMap_cons,
      b64Char_index _ (by omega : b1 / 4 < 64),
      b64Char_index _ (by omega : b1 % 4 * 16 + b2 / 16 < 64),
      b64Char_index _ (by omega : b2 % 16 * 4 + b3 / 64 < 64),
      b64Char_index _ (by omega : b3 % 64 < 64),
      sextetsToBytes, ih hr, List.cons.injEq]
    refine ⟨by omega, by omega, by omega, trivial⟩

/-- An ASCII character encodes to its own single byte. -/
theorem utf8EncodeChar_ascii (c : Char) (h : c.toNat < 128) :
    utf8EncodeChar c = [c.toNat] := by
  simp only [utf8EncodeChar]
  rw [if_pos h]

/-- UTF-8 encoding of an all-ASCII character list is the list of its code
points. -/
theorem utf8Encode_ascii_eq (l : List Char) (h : ∀ c ∈ l, c.toNat < 128) :
    (l.map utf8EncodeChar).flatten = l.map Char.toNat := by
  induction l with
  | nil => rfl
  | cons c cs ih =>
    rw [List.map_cons, List.map_cons, List.flatten_cons,
      utf8EncodeChar_ascii c (h c (by simp)), List.singleton_append,
      ih (fun x hx => h x (by simp [hx]))]

/-- The decoder maps a list of ASCII bytes to their characters, for any
sufficient fuel. -/
theorem utf8DecodeGo_ascii (bs : List Nat) (h : ∀ b ∈ bs, b < 128) :
    ∀ fuel, bs.length ≤ fuel → utf8DecodeGo fuel bs = bs.map Char.ofNat := by
  induction bs with
  | nil =>
    intro fuel _
    cases fuel <;> rfl
  | cons b bs ih =>
    intro fuel hfuel
    cases fuel with
    | zero => simp at hfuel
    | succ fuel =>
      have hb : b < 128 := h b (by simp)
      simp only [utf8DecodeGo]
      rw [if_pos hb, List.map_cons,
        ih (fun x hx => h x (by simp [hx])) fuel (by simp at hfuel; omega)]

/-- UTF-8 decoding inverts UTF-8 encoding on ASCII strings. -/
theorem utf8_roundtrip_ascii (l : List Char) (h : ∀ c ∈ l, c.toNat < 128) :
    utf8DecodeList ((l.map utf8EncodeChar).flatten) = l := by
  rw [utf8Encode_ascii_eq l h]
  unfold utf8DecodeList
  rw [utf8DecodeGo_ascii _ (by simpa using h) _ (le_of_eq rfl),
    List.map_map]
  have : ∀ c ∈ l, (Char.ofNat ∘ Char.toNat) c = id c := fun c _ => by
    simp [Char.ofNat_toNat]
  rw [List.map_congr_left this, List.map_id]

/-- The code point of a decimal digit character built from a digit. -/
theorem digitChar_toNat (d : Nat) (h : d < 10) :
    (Char.ofNat (48 + d)).toNat = 48 + d := by
  interval_cases d <;> decide

/-- Every character of `${page}` is a decimal digit. -/
theorem natToDecList_digits (p : Nat) :
    ∀ c ∈ natToDecList p, isDigit c = true := by
  unfold natToDecList
  split
  · intro c hc
    rw [List.mem_singleton] at hc
    subst hc
    decide
  · intro c hc
    rw [List.mem_map] at hc
    obtain ⟨d, hd, rfl⟩ := hc
    rw [List.mem_reverse] at hd
    have hlt : d < 10 := Nat.digits_lt_base (by norm_num) hd
    simp only [isDigit, digitChar_toNat d hlt, Bool.and_eq_true,
      decide_eq_true_eq]
    omega

/-- `${page}` is never the empty string. -/
theorem natToDecList_ne_nil (p : Nat) : natToDecList p ≠ [] := by
  unfold natToDecList
  split
  · simp
  · rename_i hp
    simp only [ne_eq, List.map_eq_nil_iff, List.reverse_eq_nil_iff]
    exact Nat.digits_ne_nil_iff_ne_zero.mpr hp

/-- Folding most-significant-first digit accumulation over the reversed
little-endian digit list computes `ofDigits`. -/
theorem foldl_mul_add (L : List Nat) (a : Nat) :
    L.reverse.foldl (fun acc d => acc * 10 + d) a =
      a * 10 ^ L.length + Nat.ofDigits 10 L := by
  induction L generalizing a with
  | nil => simp
  | cons d L ih =>
    rw [List.reverse_cons, List.foldl_append, ih]
    simp only [List.foldl_cons, List.foldl_nil, Nat.ofDigits_cons,
      List.length_cons]
    ring

/-- Digit-character accumulation agrees with digit accumulation. -/
theorem foldl_digitChar (L : List Nat) (hL : ∀ d ∈ L, d < 10) (a : Nat) :
    (L.map fun d => Char.ofNat (48 + d)).foldl
      (fun acc c => acc * 10 + (c.toNat - 48)) a =
      L.foldl (fun acc d => acc * 10 + d) a := by
  induction L generalizing a with
  | nil => rfl
  | cons d L ih =>
    have hd : d < 10 := hL d (by simp)
    rw [List.map_cons, List.foldl_cons, List.foldl_cons, digitChar_toNat d hd,
      show 48 + d - 48 = d from by omega]
    exact ih (fun x hx => hL x (by simp [hx])) _

/-- The numeric value of `${page}` is the page. -/
theorem digitsVal_natToDecList (p : Nat) : digitsVal (natToDecList p) = p := by
  by_cases hp : p = 0
  · subst hp
    decide
  · unfold natToDecList digitsVal
    rw [if_neg hp,
      foldl_digitChar _ (fun d hd =>
        Nat.digits_lt_base (by norm_num) (List.mem_reverse.mp hd)) 0,
      foldl_mul_add]
    simp [Nat.ofDigits_digits]

/-- A decimal digit is not JavaScript whitespace. -/
theorem jsWhitespace_of_digit (c : Char) (h : isDigit c = true) :
    jsWhitespace c = false := by
  simp only [isDigit, Bool.and_eq_true, decide_eq_true_eq] at h
  simp only [jsWhitespace, jsWhitespaceCodes, List.mem_cons,
    List.not_mem_nil, or_false, decide_eq_false_iff_not]
  omega

/-- `dropWhile` is the identity when the predicate fails on every member. -/
theorem dropWhile_eq_self_of_all {α : Type} (p : α → Bool) (l : List α)
    (h : ∀ c ∈ l, p c = false) : l.dropWhile p = l := by
  cases l with
  | nil => rfl
  | cons a l =>
    rw [List.dropWhile_cons, h a (by simp)]
    simp

/-- Trimming is the identity on digit strings. -/
theorem jsTrim_digits (l : List Char) (h : ∀ c ∈ l, isDigit c = true) :
    jsTrim l = l := by
  unfold jsTrim
  rw [dropWhile_eq_self_of_all _ l
      (fun c hc => jsWhitespace_of_digit c (h c hc)),
    dropWhile_eq_self_of_all _ l.reverse
      (fun c hc => jsWhitespace_of_digit c (h c (List.mem_reverse.mp hc))),
    List.reverse_reverse]

/-- A digit string carries no sign. -/
theorem parseSign_of_digit (l : List Char) (h : ∀ c ∈ l, isDigit c = true) :
    parseSign l = (false, l) := by
  cases l with
  | nil => rfl
  | cons c r =>
    have hc := h c (by simp)
    simp only [isDigit, Bool.and_eq_true, decide_eq_true_eq] at hc
    unfold parseSign
    dsimp only
    rw [if_neg (fun he : c = '+' => absurd hc.1 (by subst he; decide)),
      if_neg (fun he : c = '-' => absurd hc.1 (by subst he; decide))]

/-- A digit string is not the literal `Infinity`. -/
theorem ne_infinity_of_digits (l : List Char) (h0 : l ≠ [])
    (h : ∀ c ∈ l, isDigit c = true) : l ≠ infinityChars := by
  cases l with
  | nil => exact absurd rfl h0
  | cons c r =>
    intro he
    have hc := h c (by simp)
    rw [infinityChars] at he
    injection he with h1 _
    subst h1
    revert hc
    decide

/-- JavaScript `Number` of a (non-empty all-)digit string is its exact
value. -/
theorem jsStringToNumber_digits (l : List Char) (h0 : l ≠ [])
    (h : ∀ c ∈ l, isDigit c = true) :
    jsStringToNumber l.asString = .finite ((digitsVal l : ℚ)) := by
  have hlit : parseStrNumericLiteral l = parseSignedDecimal l := by
    cases l with
    | nil => rfl
    | cons c0 r =>
      cases r with
      | nil => rfl
      | cons c rest =>
        have hc := h c (by simp)
        simp only [isDigit, Bool.and_eq_true, decide_eq_true_eq] at hc
        have hno : ∀ a b : Char, a.toNat > 57 → b.toNat > 57 →
            ¬((c0 = '0' && (c = a || c = b)) = true) := by
          intro a b ha hb
          simp only [Bool.and_eq_true, Bool.or_eq_true, decide_eq_true_eq]
          rintro ⟨-, h1 | h1⟩ <;> (subst h1; omega)
        unfold parseStrNumericLiteral
        dsimp only
        rw [if_neg (hno 'x' 'X' (by decide) (by decide)),
          if_neg (hno 'o' 'O' (by decide) (by decide)),
          if_neg (hno 'b' 'B' (by decide) (by decide))]
  unfold jsStringToNumber
  rw [toList_asString, jsTrim_digits l h, if_neg h0, hlit]
  unfold parseSignedDecimal
  rw [parseSign_of_digit l h]
  dsimp only
  rw [if_neg (ne_infinity_of_digits l h0 h)]
  unfold parseUnsignedDec
  rw [List.takeWhile_eq_self_iff.mpr h, List.dropWhile_eq_nil_iff.mpr h]
  dsimp only
  unfold mkDecimal
  rw [if_neg (by simp [h0])]
  unfold mkFinite
  norm_num [digitsVal]

/-- Encoding a non-empty byte list yields characters. -/
theorem base64EncodeBytes_ne_nil (b : Nat) (bs : List Nat) :
    base64EncodeBytes (b :: bs) ≠ [] := by
  match bs with
  | [] => simp [base64EncodeBytes]
  | [b2] => simp [base64EncodeBytes]
  | b2 :: b3 :: rest => simp [base64EncodeBytes]

/-- An encoded page cursor is never the empty string. -/
theorem encodePageCursor_ne_empty (p : Nat) : encodePageCursor p ≠ "" := by
  obtain ⟨c, cs, hc⟩ := List.exists_cons_of_ne_nil (natToDecList_ne_nil p)
  have hca : c.toNat < 128 := by
    have := natToDecList_digits p c (by rw [hc]; simp)
    simp only [isDigit, Bool.and_eq_true, decide_eq_true_eq] at this
    omega
  unfold encodePageCursor natToDecString utf8Encode
  rw [toList_asString, hc, List.map_cons, utf8EncodeChar_ascii c hca,
    List.flatten_cons, List.singleton_append]
  intro he
  have hl := congrArg String.toList he
  rw [toList_asString] at hl
  exact base64EncodeBytes_ne_nil _ _ hl

/-- C4: decoding inverts encoding on every page index in the platform's
safe integer range. -/
theorem pageCursorRoundTrip (p : Nat) (_hp : p ≤ 2 ^ 53) :
    decodePageCursor (some (encodePageCursor p)) = .ok (.finite (p : ℚ)) := by
  have hdigits := natToDecList_digits p
  have hascii : ∀ c ∈ natToDecList p, c.toNat < 128 := by
    intro c hc
    have := hdigits c hc
    simp only [isDigit, Bool.and_eq_true, decide_eq_true_eq] at this
    omega
  have hbytes : ∀ b ∈ ((natToDecList p).map utf8EncodeChar).flatten,
      b < 256 := by
    rw [utf8Encode_ascii_eq _ hascii]
    intro b hb
    rw [List.mem_map] at hb
    obtain ⟨c, hcmem, rfl⟩ := hb
    have := hascii c hcmem
    omega
  have hb64 : base64Decode (encodePageCursor p) =
      utf8Encode (natToDecString p) := by
    unfold base64Decode encodePageCursor
    rw [toList_asString]
    exact base64_roundtrip _ hbytes
  have hutf : utf8Decode (base64Decode (encodePageCursor p)) =
      natToDecString p := by
    rw [hb64]
    unfold utf8Decode utf8Encode natToDecString
    rw [toList_asString, utf8_roundtrip_ascii _ hascii]
  have hnum : jsStringToNumber (utf8Decode (base64Decode
      (encodePageCursor p))) = .finite ((p : ℚ)) := by
    rw [hutf]
    unfold natToDecString
    rw [jsStringToNumber_digits _ (natToDecList_ne_nil p) hdigits,
      digitsVal_natToDecList]
  unfold decodePageCursor
  dsimp only
  rw [if_neg (encodePageCursor_ne_empty p), hnum]
  have hpos : ¬((p : ℚ) < 0) := not_lt.mpr (Nat.cast_nonneg p)
  simp [jsIsNaN, jsLtZero, hpos]

/-- Witness for C4 at page 12345. -/
theorem pageCursorRoundTripWitness :
    decodePageCursor (some (encodePageCursor 12345)) =
      .ok (.finite (12345 : ℚ)) :=
  pageCursorRoundTrip 12345 (by norm_num)

/-- C5 counterexample: the cursor `SW5maW5pdHk=` (base64 of `Infinity`)
decodes to a non-finite value and is accepted, not rejected — the code only
checks `isNaN` and `< 0`. -/
theorem infinityCursorAccepted :
    decodePageCursor (some "SW5maW5pdHk=") = .ok (.inf false) := by
  have h1 : base64Decode "SW5maW5pdHk=" = utf8Encode "Infinity" := by decide
  have h2 : utf8Decode (base64Decode "SW5maW5pdHk=") = "Infinity" := by
    rw [h1]
    unfold utf8Decode utf8Encode
    rw [utf8_roundtrip_ascii _ (by decide)]
    rfl
  unfold decodePageCursor
  dsimp only
  rw [if_neg (by decide : ¬("SW5maW5pdHk=" = "")), h2]
  rfl

/-- C5 (amended): an absent — or empty, hence falsy — cursor yields page 0;
a present non-empty cursor is rejected with `Invalid cursor` exactly when
the JavaScript numeric conversion of its base64-decoded payload is `NaN` or
negative.  (Payloads converting to a non-negative number that are not the
canonical base64-of-decimal form, such as `Infinity` above, are accepted.) -/
theorem invalidCursorAmended :
    decodePageCursor none = .ok (.finite 0) ∧
    decodePageCursor (some "") = .ok (.finite 0) ∧
    ∀ s : String, s ≠ "" →
      (decodePageCursor (some s) = .error "Invalid cursor" ↔
        (jsIsNaN (jsStringToNumber (utf8Decode (base64Decode s))) = true ∨
          jsLtZero (jsStringToNumber (utf8Decode (base64Decode s))) =
            true)) := by
  refine ⟨rfl, rfl, ?_⟩
  intro s hs
  unfold decodePageCursor
  dsimp only
  rw [if_neg hs]
  rcases hnan : jsIsNaN (jsStringToNumber (utf8Decode (base64Decode s))) with
    _ | _
  · rw [if_neg (by simp [hnan])]
    rcases hneg : jsLtZero (jsStringToNumber (utf8Decode (base64Decode s)))
      with _ | _
    · rw [if_neg (by simp [hneg])]
      simp
    · rw [if_pos rfl]
      simp
  · rw [if_pos rfl]
    simp

/-- Witness for C5's amended statement: base64 of `abc` converts to `NaN`
and is rejected. -/
theorem invalidCursorAmendedWitness :
    decodePageCursor (some "YWJj") = .error "Invalid cursor" :=
  (invalidCursorAmended.2.2 "YWJj" (by decide)).mpr (Or.inl (by decide))

/-- C9 counterexample: the wrapper's `index` resolves successfully even
though the underlying `index` fails — the missing `await` drops the
rejection. -/
theorem indexFailureNotPropagated :
    failingIndexUnderlying "docs" [] = .error "index failed" ∧
    (wrapperIndex failingIndexUnderlying "docs" []).2 = .ok () :=
  ⟨rfl, rfl⟩

/-- C9 (amended): `setTranslator` delegates its argument unchanged and
behaves exactly as the underlying call; `index` delegates `(type,
documents)` unchanged and performs no authorization logic, but does not
await the underlying call, so the wrapper's own promise resolves regardless
of the underlying outcome (an asynchronous failure is not propagated). -/
theorem passThroughAmended :
    (∀ (α β : Type) (u : α → β) (translator : α),
      wrapperSetTranslator u translator = u translator) ∧
    (∀ (u : String → List IndexableDocument → Except String Unit)
        (t : String) (docs : List IndexableDocument),
      (wrapperIndex u t docs).1 = (t, docs) ∧
      (wrapperIndex u t docs).2 = .ok ()) :=
  ⟨fun _ _ _ _ => rfl, fun _ _ _ => ⟨rfl, rfl⟩⟩

end AuthorizedSearch
